import Mathlib

/-! Lifecycle action completion and the state-change event adapter.

A shallow embedding of

* `pkg/event/asgterminate/lifecycleaction/complete.go` (`Input`, `Complete`), and
* `src/pkg/event/statechange/v1/handler.go` (`EC2InstanceIDs`, `Done`).

Go functions that talk to the outside world are embedded in state-passing
style: a function of the world state `σ` returning its Go results paired with
the next world state.  Go `error` values are embedded as the inductive type
`GoError`, whose constructor `nil` is the nil error.
-/

namespace Lifecycleaction

/-! ## Values supplied by the Go runtime and the AWS SDK -/

/-- A `context.Context`, reduced to what a callee can observe of it: whether it
has been cancelled and its deadline, if any. -/
structure Context where
  cancelled : Bool
  deadline : Option Nat
deriving DecidableEq, Repr

/-- The data of an `*awshttp.ResponseError` other than the error it wraps: the
service request id and the status code of the HTTP response. -/
structure ResponseError where
  RequestID : String
  StatusCode : Int
deriving DecidableEq, Repr

/-- Method `HTTPStatusCode` of `*awshttp.ResponseError`. -/
def ResponseError.HTTPStatusCode (e : ResponseError) : Int := e.StatusCode

/-- Go `error` values, by the shape of their `Unwrap` chain.

* `nil` is the nil error;
* `plain msg` is an error without an `Unwrap` method (`errors.New`, a
  `context.Canceled`, a bare network error);
* `wrapper msg Err` is an error of any type other than `*awshttp.ResponseError`
  whose `Unwrap` returns `Err` (`fmt.Errorf` with `%w`, `*smithy.OperationError`);
* `response e Err` is an `*awshttp.ResponseError` with data `e` whose `Unwrap`
  returns `Err`.

Errors with `Unwrap() []error`, errors with a custom `As` method on a type
other than `*awshttp.ResponseError`, and an `*awshttp.ResponseError` without an
HTTP response (on which `HTTPStatusCode` dereferences nil) are outside this
model. -/
inductive GoError where
  | nil : GoError
  | plain (msg : String) : GoError
  | wrapper (msg : String) (Err : GoError) : GoError
  | response (e : ResponseError) (Err : GoError) : GoError
deriving DecidableEq, Repr

/-- Method `Unwrap`, as `errors.Unwrap` sees it: nil when the error has no such
method. -/
def GoError.Unwrap : GoError → GoError
  | .nil => .nil
  | .plain _ => .nil
  | .wrapper _ Err => Err
  | .response _ Err => Err

/-- Whether the dynamic type of the error is `*awshttp.ResponseError`. -/
def GoError.isResponse : GoError → Bool
  | .response _ _ => true
  | _ => false

/-- The `Unwrap` chain of an error: the error itself, what it wraps, and so on
down to the last non-nil error.  The chain of the nil error is empty. -/
def GoError.chain : GoError → List GoError
  | .nil => []
  | .plain msg => [.plain msg]
  | .wrapper msg Err => .wrapper msg Err :: Err.chain
  | .response e Err => .response e Err :: Err.chain

/-- The call `errors.As(err, &e)` with `e` of type `*awshttp.ResponseError`: the
loop of `errors.As` walks the `Unwrap` chain from `err` and stops at the first
error assignable to the target.  `some e` is the result `true` with the target
set to `e`; `none` is the result `false`. -/
def errorsAs : GoError → Option ResponseError
  | .nil => none
  | .plain _ => none
  | .wrapper _ Err => errorsAs Err
  | .response e _ => some e

/-- The struct `autoscaling.CompleteLifecycleActionInput`.  Its fields are of
type `*string`; `none` is the nil pointer. -/
structure CompleteLifecycleActionInput where
  AutoScalingGroupName : Option String
  LifecycleActionResult : Option String
  LifecycleHookName : Option String
  LifecycleActionToken : Option String
  InstanceId : Option String
deriving DecidableEq, Repr

/-- The struct `autoscaling.CompleteLifecycleActionOutput`, which `Complete`
discards. -/
structure CompleteLifecycleActionOutput where
  ResultMetadata : List (String × String)
deriving DecidableEq, Repr

/-- Function `aws.String`: a non-nil pointer to a copy of the string. -/
def awsString (v : String) : Option String := some v

/-! ## `complete.go` -/

/-- Interface `ASGLifecycleActionCompleter`, over a world state `σ`.  The method
returns `(*CompleteLifecycleActionOutput, error)` and the next world state.
The variadic option functions are left out: `Complete` passes none. -/
structure ASGLifecycleActionCompleter (σ : Type) where
  CompleteLifecycleAction :
    Context → CompleteLifecycleActionInput → σ →
      (Option CompleteLifecycleActionOutput × GoError) × σ

/-- Struct `Input`. -/
structure Input where
  AutoScalingGroupName : String
  LifecycleActionToken : String
  LifecycleHookName : String
  EC2InstanceID : String
deriving DecidableEq, Repr

/-- The struct literal that `Complete` passes to `CompleteLifecycleAction`
(lines 42 to 48 of `complete.go`). -/
def completeRequest (input : Input) : CompleteLifecycleActionInput where
  AutoScalingGroupName := awsString input.AutoScalingGroupName
  LifecycleActionResult := awsString "CONTINUE"
  LifecycleHookName := awsString input.LifecycleHookName
  LifecycleActionToken := awsString input.LifecycleActionToken
  InstanceId := awsString input.EC2InstanceID

/-- Function `Complete`.  The Go results `(bool, error)` come paired with the
world state left by the remote call. -/
def Complete {σ : Type} (ctx : Context) (completer : ASGLifecycleActionCompleter σ)
    (input : Input) (s : σ) : (Bool × GoError) × σ :=
  let r := completer.CompleteLifecycleAction ctx (completeRequest input) s
  let err := r.1.2
  if err ≠ GoError.nil then
    ((match errorsAs err with
      | some e => decide (e.HTTPStatusCode ≠ 400)
      | none => false,
      err), r.2)
  else
    ((false, GoError.nil), r.2)

/-! ## Completers used to observe `Complete` -/

/-- One recorded call of `CompleteLifecycleAction`. -/
structure CallRecord where
  ctx : Context
  request : CompleteLifecycleActionInput
deriving DecidableEq, Repr

/-- A completer that behaves as `c` and appends every call made on it to a log
kept next to the state of `c`. -/
def recording {σ : Type} (c : ASGLifecycleActionCompleter σ) :
    ASGLifecycleActionCompleter (σ × List CallRecord) where
  CompleteLifecycleAction ctx req st :=
    let r := c.CompleteLifecycleAction ctx req st.1
    (r.1, (r.2, st.2 ++ [CallRecord.mk ctx req]))

/-- A completer without state whose remote call always returns `(out, err)`. -/
def constCompleter (out : Option CompleteLifecycleActionOutput) (err : GoError) :
    ASGLifecycleActionCompleter Unit where
  CompleteLifecycleAction _ _ s := ((out, err), s)

/-- The request of the concrete scenarios. -/
def sampleInput : Input where
  AutoScalingGroupName := "asg-1"
  LifecycleActionToken := "tok-abc"
  LifecycleHookName := "hook-x"
  EC2InstanceID := "i-123"

/-- A context that is neither cancelled nor bounded by a deadline. -/
def background : Context where
  cancelled := false
  deadline := none

end Lifecycleaction

namespace V1

open Lifecycleaction

/-! ## `handler.go` -/

/-- Modelled from the spec: the declaration of the detail record of `AWSEvent`
is missing from the sources; the spec says that a state-change notification
carries at least an instance id and a state string. -/
structure EC2InstanceStateChangeDetail where
  InstanceID : String
  State : String
deriving DecidableEq, Repr

/-- Modelled from the spec: the declaration of `AWSEvent` is missing from the
sources.  `handler.go` reads `Detail.InstanceID`; every other part of the
event record is the parameter `M`. -/
structure AWSEvent (M : Type) where
  Metadata : M
  Detail : EC2InstanceStateChangeDetail

/-- Type `EC2InstanceStateChangeNotification`, declared as `AWSEvent`. -/
abbrev EC2InstanceStateChangeNotification (M : Type) := AWSEvent M

/-- Method `EC2InstanceIDs`. -/
def EC2InstanceIDs {M : Type} (e : EC2InstanceStateChangeNotification M) : List String :=
  [e.Detail.InstanceID]

/-- Method `Done`, in the same state-passing style as `Complete`: the Go results
`(bool, error)` paired with the world state the method leaves. -/
def Done {M σ : Type} (_e : EC2InstanceStateChangeNotification M) (_ctx : Context)
    (s : σ) : (Bool × GoError) × σ :=
  ((false, GoError.nil), s)

end V1

namespace Lifecycleaction

/-! ## Lemmas on `errors.As` and on the shape of `Complete` -/

theorem errorsAs_eq_none_iff (err : GoError) :
    errorsAs err = none ↔ ∀ x ∈ err.chain, x.isResponse = false := by
  induction err with
  | nil => simp [errorsAs, GoError.chain]
  | plain msg => simp [errorsAs, GoError.chain, GoError.isResponse]
  | wrapper msg Err ih => simp [errorsAs, GoError.chain, GoError.isResponse, ih]
  | response e Err _ => simp [errorsAs, GoError.chain, GoError.isResponse]

theorem errorsAs_of_chain (err : GoError) (pre rest : List GoError) (e : ResponseError)
    (Err : GoError) (hchain : err.chain = pre ++ GoError.response e Err :: rest)
    (hpre : ∀ x ∈ pre, x.isResponse = false) : errorsAs err = some e := by
  induction err generalizing pre with
  | nil => simp [GoError.chain] at hchain
  | plain msg =>
    cases pre with
    | nil => simp [GoError.chain] at hchain
    | cons p ps => simp [GoError.chain] at hchain
  | wrapper msg inner ih =>
    cases pre with
    | nil => simp [GoError.chain] at hchain
    | cons p ps =>
      simp only [GoError.chain, List.cons_append, List.cons.injEq] at hchain
      exact ih ps hchain.2 (fun x hx => hpre x (List.mem_cons_of_mem _ hx))
  | response e0 inner _ =>
    cases pre with
    | nil =>
      simp only [GoError.chain, List.nil_append, List.cons.injEq, GoError.response.injEq]
        at hchain
      simp [errorsAs, hchain.1.1]
    | cons p ps =>
      simp only [GoError.chain, List.cons_append, List.cons.injEq] at hchain
      have := hpre p (List.mem_cons_self _ _)
      rw [← hchain.1] at this
      simp [GoError.isResponse] at this

theorem chain_of_errorsAs (err : GoError) (e : ResponseError) (h : errorsAs err = some e) :
    ∃ pre Err rest, err.chain = pre ++ GoError.response e Err :: rest ∧
      ∀ x ∈ pre, x.isResponse = false := by
  induction err with
  | nil => simp [errorsAs] at h
  | plain msg => simp [errorsAs] at h
  | wrapper msg inner ih =>
    obtain ⟨pre, Err, rest, hc, hp⟩ := ih (by simpa [errorsAs] using h)
    refine ⟨GoError.wrapper msg inner :: pre, Err, rest, by simp [GoError.chain, hc], ?_⟩
    intro x hx
    rcases List.mem_cons.1 hx with rfl | hx
    · rfl
    · exact hp x hx
  | response e0 inner _ =>
    simp only [errorsAs, Option.some.injEq] at h
    subst h
    exact ⟨[], inner, inner.chain, by simp [GoError.chain], by simp⟩

/-- The Go results of `Complete` in terms of the error of its remote call. -/
theorem Complete_fst {σ : Type} (ctx : Context) (c : ASGLifecycleActionCompleter σ)
    (input : Input) (s : σ) :
    (Complete ctx c input s).1 =
      ((match errorsAs (c.CompleteLifecycleAction ctx (completeRequest input) s).1.2 with
        | some e => decide (e.HTTPStatusCode ≠ 400)
        | none => false),
       (c.CompleteLifecycleAction ctx (completeRequest input) s).1.2) := by
  unfold Complete
  by_cases h : (c.CompleteLifecycleAction ctx (completeRequest input) s).1.2 = GoError.nil
  · simp [h, errorsAs]
  · simp [h]

/-- The world state `Complete` leaves is the one its remote call leaves. -/
theorem Complete_snd {σ : Type} (ctx : Context) (c : ASGLifecycleActionCompleter σ)
    (input : Input) (s : σ) :
    (Complete ctx c input s).2 = (c.CompleteLifecycleAction ctx (completeRequest input) s).2 := by
  unfold Complete
  by_cases h : (c.CompleteLifecycleAction ctx (completeRequest input) s).1.2 = GoError.nil
  · simp [h]
  · simp [h]

end Lifecycleaction

namespace Lifecycleaction

/-- The chain of a non-nil error is the error followed by the chain of what its
`Unwrap` returns. -/
theorem chain_eq_cons_Unwrap (err : GoError) (h : err ≠ GoError.nil) :
    err.chain = err :: err.Unwrap.chain := by
  cases err with
  | nil => exact absurd rfl h
  | plain msg => simp [GoError.chain, GoError.Unwrap]
  | wrapper msg Err => simp [GoError.chain, GoError.Unwrap]
  | response e Err => simp [GoError.chain, GoError.Unwrap]

/-! ## The claims on `Complete` -/

/-- C1: when the remote call fails with a structured response error carrying
HTTP status code `s`, `Complete` returns `(s != 400, err)` with `err` the very
error the remote call returned: status 400 gives `(false, err)` and every other
status gives `(true, err)`. -/
theorem Complete_structured_status {σ : Type} (ctx : Context)
    (c : ASGLifecycleActionCompleter σ) (input : Input) (s : σ)
    (e : ResponseError) (Err : GoError)
    (h : (c.CompleteLifecycleAction ctx (completeRequest input) s).1.2 =
      GoError.response e Err) :
    (Complete ctx c input s).1 = (decide (e.StatusCode ≠ 400), GoError.response e Err) ∧
    (e.StatusCode = 400 → (Complete ctx c input s).1 = (false, GoError.response e Err)) ∧
    (e.StatusCode ≠ 400 → (Complete ctx c input s).1 = (true, GoError.response e Err)) := by
  have key : (Complete ctx c input s).1 =
      (decide (e.StatusCode ≠ 400), GoError.response e Err) := by
    rw [Complete_fst, h]
    simp [errorsAs, ResponseError.HTTPStatusCode]
  refine ⟨key, ?_, ?_⟩
  · intro h400
    rw [key]
    simp [h400]
  · intro hne
    rw [key]
    simp [hne]

theorem Complete_structured_status_witness :
    (Complete background
        (constCompleter none (GoError.response ⟨"req-1", 500⟩ (GoError.plain "InternalFailure")))
        sampleInput ()).1 =
      (true, GoError.response ⟨"req-1", 500⟩ (GoError.plain "InternalFailure")) ∧
    (Complete background
        (constCompleter none
          (GoError.response ⟨"req-2", 400⟩ (GoError.plain "action token not found")))
        sampleInput ()).1 =
      (false, GoError.response ⟨"req-2", 400⟩ (GoError.plain "action token not found")) :=
  ⟨(Complete_structured_status background
      (constCompleter none (GoError.response ⟨"req-1", 500⟩ (GoError.plain "InternalFailure")))
      sampleInput () ⟨"req-1", 500⟩ (GoError.plain "InternalFailure") rfl).2.2 (by decide),
   (Complete_structured_status background
      (constCompleter none
        (GoError.response ⟨"req-2", 400⟩ (GoError.plain "action token not found")))
      sampleInput () ⟨"req-2", 400⟩ (GoError.plain "action token not found") rfl).2.1 rfl⟩

/-- C2: when the error of the remote call has no structured response error in
its chain (a bare connectivity error, a timeout, a context cancellation),
`Complete` returns `(false, err)` with `err` the original error; and in general
the flag is true exactly when the chain reaches a structured response error
whose status code is not 400. -/
theorem Complete_unstructured {σ : Type} (ctx : Context)
    (c : ASGLifecycleActionCompleter σ) (input : Input) (s : σ) (err : GoError)
    (h : (c.CompleteLifecycleAction ctx (completeRequest input) s).1.2 = err) :
    ((∀ x ∈ err.chain, x.isResponse = false) → (Complete ctx c input s).1 = (false, err)) ∧
    ((Complete ctx c input s).1.1 = true ↔
      ∃ pre e Err rest, err.chain = pre ++ GoError.response e Err :: rest ∧
        (∀ x ∈ pre, x.isResponse = false) ∧ e.StatusCode ≠ 400) := by
  constructor
  · intro hno
    rw [Complete_fst, h, (errorsAs_eq_none_iff err).2 hno]
  · rw [Complete_fst, h]
    constructor
    · intro hret
      cases hAs : errorsAs err with
      | none => simp [hAs] at hret
      | some e =>
        obtain ⟨pre, Err, rest, hc, hp⟩ := chain_of_errorsAs err e hAs
        refine ⟨pre, e, Err, rest, hc, hp, ?_⟩
        simpa [hAs, ResponseError.HTTPStatusCode] using hret
    · rintro ⟨pre, e, Err, rest, hc, hp, hne⟩
      rw [errorsAs_of_chain err pre rest e Err hc hp]
      simp [ResponseError.HTTPStatusCode, hne]

theorem Complete_unstructured_witness :
    (Complete background (constCompleter none (GoError.plain "connection timeout"))
      sampleInput ()).1 = (false, GoError.plain "connection timeout") :=
  (Complete_unstructured background (constCompleter none (GoError.plain "connection timeout"))
    sampleInput () (GoError.plain "connection timeout") rfl).1
    (by simp [GoError.chain, GoError.isResponse])

end Lifecycleaction

namespace Lifecycleaction

/-- C3, as stated, fails: a connection failure that carries no structured
response error is returned with the flag false, while a structured status 500
is returned with the flag true. -/
theorem Complete_non_http_not_retryable :
    ¬ ((Complete background
          (constCompleter none (GoError.wrapper "dial tcp" (GoError.plain "i/o timeout")))
          sampleInput ()).1.1 = true) ∧
    (Complete background
        (constCompleter none (GoError.wrapper "dial tcp" (GoError.plain "i/o timeout")))
        sampleInput ()).1 =
      (false, GoError.wrapper "dial tcp" (GoError.plain "i/o timeout")) ∧
    (Complete background
        (constCompleter none (GoError.response ⟨"req-3", 500⟩ (GoError.plain "InternalFailure")))
        sampleInput ()).1.1 = true := by
  refine ⟨?_, ?_, ?_⟩
  · simp [Complete, constCompleter, errorsAs]
  · simp [Complete, constCompleter, errorsAs]
  · simp [Complete, constCompleter, errorsAs, ResponseError.HTTPStatusCode]

/-- C3, amended: when the remote call fails with a non-HTTP error (no
structured response error anywhere in its chain), `Complete` treats the failure
as terminal: it returns the flag false alongside the error, exactly as it does
for a structured status 400, and unlike any structured status other than 400,
for which the flag is true. -/
theorem Complete_non_http_terminal {σ : Type} (ctx : Context)
    (c : ASGLifecycleActionCompleter σ) (input : Input) (s : σ) (err : GoError)
    (h : (c.CompleteLifecycleAction ctx (completeRequest input) s).1.2 = err)
    (hne : err ≠ GoError.nil) (hno : ∀ x ∈ err.chain, x.isResponse = false) :
    (Complete ctx c input s).1.1 = false ∧
    (Complete ctx c input s).1.2 = err ∧
    (Complete ctx c input s).1.2 ≠ GoError.nil ∧
    (∀ (rid : String) (Err : GoError),
      (Complete ctx c input s).1.1 =
        (Complete ctx (constCompleter none (GoError.response ⟨rid, 400⟩ Err)) input ()).1.1) ∧
    (∀ (rid : String) (st : Int) (Err : GoError), st ≠ 400 →
      (Complete ctx (constCompleter none (GoError.response ⟨rid, st⟩ Err)) input ()).1.1 = true ∧
      (Complete ctx c input s).1.1 ≠
        (Complete ctx (constCompleter none (GoError.response ⟨rid, st⟩ Err)) input ()).1.1) := by
  have key : (Complete ctx c input s).1 = (false, err) := by
    rw [Complete_fst, h, (errorsAs_eq_none_iff err).2 hno]
  refine ⟨by rw [key], by rw [key], by rw [key]; exact hne, ?_, ?_⟩
  · intro rid Err
    rw [key, Complete_fst]
    simp [constCompleter, errorsAs, ResponseError.HTTPStatusCode]
  · intro rid st Err hst
    have hst1 : (Complete ctx (constCompleter none (GoError.response ⟨rid, st⟩ Err))
        input ()).1.1 = true := by
      rw [Complete_fst]
      simp [constCompleter, errorsAs, ResponseError.HTTPStatusCode, hst]
    refine ⟨hst1, ?_⟩
    rw [key, hst1]
    simp

theorem Complete_non_http_terminal_witness :
    (Complete background (constCompleter none (GoError.plain "context canceled"))
      sampleInput ()).1.1 = false ∧
    (Complete background (constCompleter none (GoError.plain "context canceled"))
      sampleInput ()).1.1 ≠
      (Complete background
        (constCompleter none (GoError.response ⟨"req-5", 503⟩ (GoError.plain "ServiceUnavailable")))
        sampleInput ()).1.1 :=
  ⟨(Complete_non_http_terminal background
      (constCompleter none (GoError.plain "context canceled")) sampleInput ()
      (GoError.plain "context canceled") rfl (by decide)
      (by simp [GoError.chain, GoError.isResponse])).1,
   ((Complete_non_http_terminal background
      (constCompleter none (GoError.plain "context canceled")) sampleInput ()
      (GoError.plain "context canceled") rfl (by decide)
      (by simp [GoError.chain, GoError.isResponse])).2.2.2.2
      "req-5" 503 (GoError.plain "ServiceUnavailable") (by decide)).2⟩

/-- C4: when the remote call succeeds (nil error, whatever the output),
`Complete` returns `(false, nil)`. -/
theorem Complete_success {σ : Type} (ctx : Context) (c : ASGLifecycleActionCompleter σ)
    (input : Input) (s : σ)
    (h : (c.CompleteLifecycleAction ctx (completeRequest input) s).1.2 = GoError.nil) :
    (Complete ctx c input s).1 = (false, GoError.nil) := by
  rw [Complete_fst, h]
  simp [errorsAs]

theorem Complete_success_witness :
    (Complete background (constCompleter (some ⟨[("request-id", "r-1")]⟩) GoError.nil)
      ⟨"asg-1", "tok-abc", "hook-x", "i-123"⟩ ()).1 = (false, GoError.nil) :=
  Complete_success background (constCompleter (some ⟨[("request-id", "r-1")]⟩) GoError.nil)
    ⟨"asg-1", "tok-abc", "hook-x", "i-123"⟩ () rfl

/-- C5: `Complete` never swallows or replaces an error: the error it returns is
the very error value its remote call returned, so it is nil if and only if the
remote call returned nil, whatever the flag is. -/
theorem Complete_error_passthrough {σ : Type} (ctx : Context)
    (c : ASGLifecycleActionCompleter σ) (input : Input) (s : σ) :
    (Complete ctx c input s).1.2 =
      (c.CompleteLifecycleAction ctx (completeRequest input) s).1.2 ∧
    ((Complete ctx c input s).1.2 = GoError.nil ↔
      (c.CompleteLifecycleAction ctx (completeRequest input) s).1.2 = GoError.nil) := by
  have key : (Complete ctx c input s).1.2 =
      (c.CompleteLifecycleAction ctx (completeRequest input) s).1.2 := by
    rw [Complete_fst]
  exact ⟨key, by rw [key]⟩

/-- C6: on a completer that records the calls made on it, one invocation of
`Complete` adds exactly one call to the log, whatever the remote call returns:
the earlier log is kept, the state of the completer is the one that single call
leaves, and the results are those of the completer without the log. -/
theorem Complete_exactly_one_call {σ : Type} (ctx : Context)
    (c : ASGLifecycleActionCompleter σ) (input : Input) (s : σ) (log : List CallRecord) :
    (Complete ctx (recording c) input (s, log)).2.2.length = log.length + 1 ∧
    (Complete ctx (recording c) input (s, log)).2.2.take log.length = log ∧
    (Complete ctx (recording c) input (s, log)).2.1 =
      (c.CompleteLifecycleAction ctx (completeRequest input) s).2 ∧
    (Complete ctx (recording c) input (s, log)).1 = (Complete ctx c input s).1 := by
  refine ⟨?_, ?_, ?_, ?_⟩
  · rw [Complete_snd]
    simp [recording]
  · rw [Complete_snd]
    simp [recording]
  · rw [Complete_snd]
    simp [recording]
  · rw [Complete_fst, Complete_fst]
    simp [recording]

/-- C7: the one request `Complete` passes to the remote call has
`LifecycleActionResult` equal to `"CONTINUE"` (not `"ABANDON"`) and carries each
input field unchanged in its own slot, also when a field is the empty string;
the context is passed on as received. -/
theorem Complete_request_fields {σ : Type} (ctx : Context)
    (c : ASGLifecycleActionCompleter σ) (input : Input) (s : σ) (log : List CallRecord) :
    (Complete ctx (recording c) input (s, log)).2.2.drop log.length =
      [CallRecord.mk ctx (completeRequest input)] ∧
    (completeRequest input).LifecycleActionResult = some "CONTINUE" ∧
    (completeRequest input).LifecycleActionResult ≠ some "ABANDON" ∧
    (completeRequest input).AutoScalingGroupName = some input.AutoScalingGroupName ∧
    (completeRequest input).LifecycleHookName = some input.LifecycleHookName ∧
    (completeRequest input).LifecycleActionToken = some input.LifecycleActionToken ∧
    (completeRequest input).InstanceId = some input.EC2InstanceID ∧
    (Complete ctx (recording c) ⟨"", "", "", ""⟩ (s, log)).2.2.drop log.length =
      [CallRecord.mk ctx
        (CompleteLifecycleActionInput.mk (some "") (some "CONTINUE") (some "") (some "")
          (some ""))] := by
  refine ⟨?_, rfl, ?_, rfl, rfl, rfl, rfl, ?_⟩
  · rw [Complete_snd]
    simp [recording]
  · simp [completeRequest, awsString]
  · rw [Complete_snd]
    simp [recording, completeRequest, awsString]

/-- C10: `Complete` classifies by searching the whole `Unwrap` chain of the
error: when the first structured response error of the chain, at any depth,
has status code `s`, the flag is `s != 400` and the error returned is the
outermost error as received; the search fails, and the flag takes its default
false, exactly when the chain holds no structured response error. -/
theorem Complete_searches_chain {σ : Type} (ctx : Context)
    (c : ASGLifecycleActionCompleter σ) (input : Input) (s : σ) (err : GoError)
    (pre rest : List GoError) (e : ResponseError) (Err : GoError)
    (h : (c.CompleteLifecycleAction ctx (completeRequest input) s).1.2 = err)
    (hchain : err.chain = pre ++ GoError.response e Err :: rest)
    (hpre : ∀ x ∈ pre, x.isResponse = false) :
    (Complete ctx c input s).1 = (decide (e.StatusCode ≠ 400), err) ∧
    errorsAs err = some e ∧
    ∀ err0 : GoError, errorsAs err0 = none ↔ ∀ x ∈ err0.chain, x.isResponse = false := by
  have hAs := errorsAs_of_chain err pre rest e Err hchain hpre
  refine ⟨?_, hAs, errorsAs_eq_none_iff⟩
  rw [Complete_fst, h, hAs]
  simp [ResponseError.HTTPStatusCode]

theorem Complete_searches_chain_witness :
    (Complete background
      (constCompleter none
        (GoError.wrapper "operation error Auto Scaling: CompleteLifecycleAction"
          (GoError.response ⟨"req-4", 500⟩ (GoError.plain "InternalFailure"))))
      sampleInput ()).1 =
    (true,
      GoError.wrapper "operation error Auto Scaling: CompleteLifecycleAction"
        (GoError.response ⟨"req-4", 500⟩ (GoError.plain "InternalFailure"))) :=
  (Complete_searches_chain background
    (constCompleter none
      (GoError.wrapper "operation error Auto Scaling: CompleteLifecycleAction"
        (GoError.response ⟨"req-4", 500⟩ (GoError.plain "InternalFailure"))))
    sampleInput ()
    (GoError.wrapper "operation error Auto Scaling: CompleteLifecycleAction"
      (GoError.response ⟨"req-4", 500⟩ (GoError.plain "InternalFailure")))
    [GoError.wrapper "operation error Auto Scaling: CompleteLifecycleAction"
      (GoError.response ⟨"req-4", 500⟩ (GoError.plain "InternalFailure"))]
    [GoError.plain "InternalFailure"]
    ⟨"req-4", 500⟩ (GoError.plain "InternalFailure") rfl rfl
    (by simp [GoError.isResponse])).1

end Lifecycleaction

namespace V1

open Lifecycleaction

/-! ## The claims on the state-change event adapter -/

/-- C8: for every event and every context, also a cancelled one, `Done` returns
`(false, nil)`; the result depends neither on the event nor on the context, and
the world state is left as it was, so no remote call is made: a call log kept
in the state does not grow. -/
theorem Done_false_nil {M σ : Type} (e : EC2InstanceStateChangeNotification M)
    (ctx : Context) (s : σ) (log : List CallRecord) :
    Done e ctx s = ((false, GoError.nil), s) ∧
    Done e (Context.mk true ctx.deadline) s = ((false, GoError.nil), s) ∧
    (∀ (e0 : EC2InstanceStateChangeNotification M) (ctx0 : Context),
      Done e0 ctx0 s = Done e ctx s) ∧
    (Done e ctx (s, log)).2.2 = log := by
  refine ⟨rfl, rfl, fun _ _ => rfl, rfl⟩

/-- C9: for every event, `EC2InstanceIDs` returns a sequence of length exactly 1
whose single element is the instance id of the event detail; for the empty
instance id the result is the sequence holding the empty string, not the empty
sequence. -/
theorem EC2InstanceIDs_singleton {M : Type} (e : EC2InstanceStateChangeNotification M) :
    EC2InstanceIDs e = [e.Detail.InstanceID] ∧
    (EC2InstanceIDs e).length = 1 ∧
    EC2InstanceIDs (AWSEvent.mk e.Metadata ⟨"", e.Detail.State⟩) = [""] ∧
    EC2InstanceIDs (AWSEvent.mk e.Metadata ⟨"", e.Detail.State⟩) ≠ [] := by
  refine ⟨rfl, rfl, rfl, ?_⟩
  simp [EC2InstanceIDs]

end V1
